import Mathlib

/-!
Verification of the `radium` Element Store Policy and the `bitvec` owned
bit-region (`BitBox`) against their natural-language specification.

The `Radium` namespace embeds `src/radium/src/lib.rs`: the `radium!` macro
emits, per element type, one implementation of the `Radium<T>` trait for the
atomic wrapper type and one for `Cell<T>`.  We model an element value as a
pure state of type `α`, a trait-method invocation as a value of `Op α`, and
each of the two implementations as a step function `Op α → α → RVal α × α`
(returned value, new stored state).  The atomic step function is the
single-threaded (uncontended) sequential semantics of the `core::sync::atomic`
primitives that the `atom`/`atom_bit`/`atom_int` macro arms delegate to;
`compare_exchange_weak` is modelled without spurious failure, which is its
deterministic uncontended behaviour.  The cell step function transcribes the
`cell`/`cell_bit`/`cell_int` macro arms literally (`Cell::get`, `Cell::set`,
`Cell::replace`).

The `BitBoxModel` namespace embeds `src/bitvec/src/boxed/api.rs`
(`into_raw`, `from_raw`, `leak`) together with the allocator-facing parts of
the owned region that the repository snapshot does not include under `src/`
(the allocating constructor, the destructor, and the `BitSpan` codec); those
parts are modelled from the specification, as marked on each definition.
-/

namespace Radium

/-- The five `core::sync::atomic::Ordering` hints.  In plain (`Cell`) mode
every operation ignores its ordering argument; in the single-threaded model
of atomic mode the ordering has no effect on values either. -/
inductive MemOrder
  | relaxed
  | acquire
  | release
  | acqRel
  | seqCst
deriving DecidableEq, Repr

/-- The value returned by one `Radium` trait-method invocation:
`unit` for `store`/`fence`, `val prev` for the value-returning operations,
and `ok prev` / `err prev` for the two `compare_exchange` variants that
return `Result<T, T>`. -/
inductive RVal (α : Type)
  | unit
  | val (a : α)
  | ok (a : α)
  | err (a : α)
deriving DecidableEq, Repr

/-- One invocation of a `Radium<T>` trait method, with its argument values
and memory-ordering hints.  `fence` is included as the one state-indifferent
member of the operation set. -/
inductive Op (α : Type)
  | load (o : MemOrder)
  | store (v : α) (o : MemOrder)
  | swap (v : α) (o : MemOrder)
  | compareAndSwap (cur new : α) (o : MemOrder)
  | compareExchange (cur new : α) (so fo : MemOrder)
  | compareExchangeWeak (cur new : α) (so fo : MemOrder)
  | fetchAnd (v : α) (o : MemOrder)
  | fetchNand (v : α) (o : MemOrder)
  | fetchOr (v : α) (o : MemOrder)
  | fetchXor (v : α) (o : MemOrder)
  | fetchAdd (v : α) (o : MemOrder)
  | fetchSub (v : α) (o : MemOrder)
  | fence (o : MemOrder)
deriving DecidableEq, Repr

/-- The primitive operations of one element type `α`: equality comparison
(`PartialEq`), the bitwise operators `&`, `!`, `|`, `^`, and the wrapping
numeric operators.  Both mode implementations are generic over this record,
exactly as the `radium!` macro is generic over `$base`. -/
structure Elem (α : Type) where
  beq : α → α → Bool
  band : α → α → α
  bnot : α → α
  bor : α → α → α
  bxor : α → α → α
  wrapAdd : α → α → α
  wrapSub : α → α → α

/-- The `cell` macro arm's `compare_exchange` body (lib.rs lines 467-480):
`if self.get() == current { Ok(self.replace(new)) } else { Err(self.get()) }`. -/
def cellCompareExchange (e : Elem α) (cur new s : α) : RVal α × α :=
  if e.beq s cur then (RVal.ok s, new) else (RVal.err s, s)

/-- Plain-mode step function: the `cell`, `cell_bit` and `cell_int` arms of
the `radium!` macro (lib.rs lines 419-528).  `load` is `Cell::get`, `store`
is `Cell::set`, `swap` and every `fetch_*` use `Cell::replace`,
`compare_and_swap` is `if self.get() == current { self.replace(new) } else
{ self.get() }`, `compare_exchange_weak` delegates to `compare_exchange`
(line 490), and `fence` has an empty body. -/
def cellStep (e : Elem α) : Op α → α → RVal α × α
  | Op.load _, s => (RVal.val s, s)
  | Op.store v _, _ => (RVal.unit, v)
  | Op.swap v _, s => (RVal.val s, v)
  | Op.compareAndSwap cur new _, s =>
      if e.beq s cur then (RVal.val s, new) else (RVal.val s, s)
  | Op.compareExchange cur new _ _, s => cellCompareExchange e cur new s
  | Op.compareExchangeWeak cur new _ _, s => cellCompareExchange e cur new s
  | Op.fetchAnd v _, s => (RVal.val s, e.band s v)
  | Op.fetchNand v _, s => (RVal.val s, e.bnot (e.band s v))
  | Op.fetchOr v _, s => (RVal.val s, e.bor s v)
  | Op.fetchXor v _, s => (RVal.val s, e.bxor s v)
  | Op.fetchAdd v _, s => (RVal.val s, e.wrapAdd s v)
  | Op.fetchSub v _, s => (RVal.val s, e.wrapSub s v)
  | Op.fence _, s => (RVal.unit, s)

/-- Atomic-mode step function: the `atom`, `atom_bit` and `atom_int` arms of
the `radium!` macro (lib.rs lines 282-385) delegate each method to the
same-named `core::sync::atomic` primitive; this is the documented sequential
semantics of those primitives for a single-threaded, uncontended execution.
`compare_exchange_weak` may spuriously fail only under contention, so it is
deterministic here; `fence` orders memory but changes no value. -/
def atomicStep (e : Elem α) : Op α → α → RVal α × α
  | Op.load _, s => (RVal.val s, s)
  | Op.store v _, _ => (RVal.unit, v)
  | Op.swap v _, s => (RVal.val s, v)
  | Op.compareAndSwap cur new _, s =>
      if e.beq s cur then (RVal.val s, new) else (RVal.val s, s)
  | Op.compareExchange cur new _ _, s =>
      if e.beq s cur then (RVal.ok s, new) else (RVal.err s, s)
  | Op.compareExchangeWeak cur new _ _, s =>
      if e.beq s cur then (RVal.ok s, new) else (RVal.err s, s)
  | Op.fetchAnd v _, s => (RVal.val s, e.band s v)
  | Op.fetchNand v _, s => (RVal.val s, e.bnot (e.band s v))
  | Op.fetchOr v _, s => (RVal.val s, e.bor s v)
  | Op.fetchXor v _, s => (RVal.val s, e.bxor s v)
  | Op.fetchAdd v _, s => (RVal.val s, e.wrapAdd s v)
  | Op.fetchSub v _, s => (RVal.val s, e.wrapSub s v)
  | Op.fence _, s => (RVal.unit, s)

/-- Runs a single-threaded, non-aliased sequence of operations through the
plain-mode implementation, collecting each returned value and the final
stored state. -/
def runCell (e : Elem α) : List (Op α) → α → List (RVal α) × α
  | [], s => ([], s)
  | op :: ops, s =>
      let r := cellStep e op s
      let rest := runCell e ops r.2
      (r.1 :: rest.1, rest.2)

/-- Runs a single-threaded, non-aliased sequence of operations through the
atomic-mode implementation, collecting each returned value and the final
stored state. -/
def runAtomic (e : Elem α) : List (Op α) → α → List (RVal α) × α
  | [], s => ([], s)
  | op :: ops, s =>
      let r := atomicStep e op s
      let rest := runAtomic e ops r.2
      (r.1 :: rest.1, rest.2)

/-- The `u`-style integer element of width `w` bits: values are the `2 ^ w`
bit patterns, represented as natural numbers below `2 ^ w`.  `==` is
`PartialEq` on integers, the bitwise operators are the machine operators,
and `wrapping_add`/`wrapping_sub` reduce modulo `2 ^ w`.  Signed integers of
width `w` have the same bit-pattern semantics under two's complement. -/
def intElem (w : Nat) : Elem Nat where
  beq := Nat.beq
  band := Nat.land
  bnot := fun a => Nat.xor a (2 ^ w - 1)
  bor := Nat.lor
  bxor := Nat.xor
  wrapAdd := fun a b => (a + b) % 2 ^ w
  wrapSub := fun a b => (a + (2 ^ w - b % 2 ^ w)) % 2 ^ w

/-- Replaces every memory-ordering hint in an operation by `relaxed`,
keeping the operation's kind and value arguments.  Two operations with the
same `stripOrder` image differ at most in their ordering hints. -/
def stripOrder : Op α → Op α
  | Op.load _ => Op.load MemOrder.relaxed
  | Op.store v _ => Op.store v MemOrder.relaxed
  | Op.swap v _ => Op.swap v MemOrder.relaxed
  | Op.compareAndSwap cur new _ =>
      Op.compareAndSwap cur new MemOrder.relaxed
  | Op.compareExchange cur new _ _ =>
      Op.compareExchange cur new MemOrder.relaxed MemOrder.relaxed
  | Op.compareExchangeWeak cur new _ _ =>
      Op.compareExchangeWeak cur new MemOrder.relaxed MemOrder.relaxed
  | Op.fetchAnd v _ => Op.fetchAnd v MemOrder.relaxed
  | Op.fetchNand v _ => Op.fetchNand v MemOrder.relaxed
  | Op.fetchOr v _ => Op.fetchOr v MemOrder.relaxed
  | Op.fetchXor v _ => Op.fetchXor v MemOrder.relaxed
  | Op.fetchAdd v _ => Op.fetchAdd v MemOrder.relaxed
  | Op.fetchSub v _ => Op.fetchSub v MemOrder.relaxed
  | Op.fence _ => Op.fence MemOrder.relaxed

/-- Number of writes (`Cell::set` / `Cell::replace` calls) the plain-mode
implementation performs for one operation from state `s`.  Transcribed from
the `cell`/`cell_bit`/`cell_int` macro arms: `load` and `fence` never write;
`store`, `swap` and every `fetch_*` write unconditionally; the three compare
operations call `replace` only in their success branch (`self.get() ==
current`) and merely `self.get()` otherwise. -/
def cellWrites (e : Elem α) : Op α → α → Nat
  | Op.load _, _ => 0
  | Op.store _ _, _ => 1
  | Op.swap _ _, _ => 1
  | Op.compareAndSwap cur _ _, s => if e.beq s cur then 1 else 0
  | Op.compareExchange cur _ _ _, s => if e.beq s cur then 1 else 0
  | Op.compareExchangeWeak cur _ _ _, s => if e.beq s cur then 1 else 0
  | Op.fetchAnd _ _, _ => 1
  | Op.fetchNand _ _, _ => 1
  | Op.fetchOr _ _, _ => 1
  | Op.fetchXor _ _, _ => 1
  | Op.fetchAdd _ _, _ => 1
  | Op.fetchSub _ _, _ => 1
  | Op.fence _, _ => 0

/-- Holds for every operation other than `load` and `fence`: the
operations the specification asserts always mutate the stored state. -/
def isMutatingKind : Op α → Bool
  | Op.load _ => false
  | Op.fence _ => false
  | _ => true

/-- Holds unless the operation is one of the three compare operations and
its `current` argument differs from the stored state `s`: the condition
under which the plain-mode implementation reaches a `set`/`replace` call. -/
def comparePasses (e : Elem α) : Op α → α → Bool
  | Op.compareAndSwap cur _ _, s => e.beq s cur
  | Op.compareExchange cur _ _ _, s => e.beq s cur
  | Op.compareExchangeWeak cur _ _ _, s => e.beq s cur
  | _, _ => true

/-- The element types for which the `radium!` macro emits `Radium`
implementations: the ten integer fundamentals (lib.rs lines 608-620), `bool`
(line 622), and raw pointers (line 624). -/
inductive ElemTy
  | int (signed : Bool) (bytes : Nat)
  | boolean
  | pointer
deriving DecidableEq, Repr

/-- Membership in `IsBits`: the `int` arm emits `impl IsBits for $base` for
every integer fundamental (line 532) and the `bit` arm for `bool`
(line 389); no `IsBits` impl exists for pointers. -/
def isBits : ElemTy → Bool
  | ElemTy.int _ _ => true
  | ElemTy.boolean => true
  | ElemTy.pointer => false

/-- Membership in `IsANum`: the `int` arm emits `impl IsANum for $base` for
every integer fundamental (line 533); neither `bool` nor pointers get one. -/
def isANum : ElemTy → Bool
  | ElemTy.int _ _ => true
  | ElemTy.boolean => false
  | ElemTy.pointer => false

/-- The thirteen method names of the `Radium` trait, without arguments. -/
inductive OpKind
  | load
  | store
  | swap
  | compareAndSwap
  | compareExchange
  | compareExchangeWeak
  | fetchAnd
  | fetchNand
  | fetchOr
  | fetchXor
  | fetchAdd
  | fetchSub
  | fence
deriving DecidableEq, Repr

/-- Holds for the bit-pattern-only methods, which carry a `where T: IsBits`
clause on the `Radium` trait (lib.rs lines 162-206). -/
def requiresBits : OpKind → Bool
  | OpKind.fetchAnd => true
  | OpKind.fetchNand => true
  | OpKind.fetchOr => true
  | OpKind.fetchXor => true
  | _ => false

/-- Holds for the numeric-only methods, which carry a `where T: IsANum`
clause on the `Radium` trait (lib.rs lines 218-234). -/
def requiresNum : OpKind → Bool
  | OpKind.fetchAdd => true
  | OpKind.fetchSub => true
  | _ => false

/-- A trait-method call type-checks exactly when the element type satisfies
the method's `where` clause: `T: IsBits` for the bitwise methods and
`T: IsANum` for the numeric methods; the rest are unconditional.  This is the
compile-time gate: a program containing a call that fails this predicate is
rejected by the type checker before it can run. -/
def wellTyped (ty : ElemTy) (k : OpKind) : Bool :=
  (!requiresBits k || isBits ty) && (!requiresNum k || isANum ty)

/-- Holds when the `radium!` macro emits an `unreachable!` fallback body for
this method on this element type (in both the atomic and the `Cell`
implementation): `fetch_add`/`fetch_sub` for `bool` (lib.rs lines 395-401
and 408-414) and all six `fetch_*` methods for pointers (lines 553-575 and
581-603).  Integer fundamentals get real bodies for every method. -/
def bodyIsUnreachable : ElemTy → OpKind → Bool
  | ElemTy.boolean, OpKind.fetchAdd => true
  | ElemTy.boolean, OpKind.fetchSub => true
  | ElemTy.pointer, OpKind.fetchAnd => true
  | ElemTy.pointer, OpKind.fetchNand => true
  | ElemTy.pointer, OpKind.fetchOr => true
  | ElemTy.pointer, OpKind.fetchXor => true
  | ElemTy.pointer, OpKind.fetchAdd => true
  | ElemTy.pointer, OpKind.fetchSub => true
  | _, _ => false

end Radium

namespace BitBoxModel

/-- The decoded form of a `BitSpan` handle (`bitvec`): base address of the
first storage element, head-bit offset into that element, and bit length.
The `*mut BitSlice` fat pointer that `into_raw`/`leak` produce and
`from_raw` consumes is a packed but lossless encoding of exactly this data
(spec: the codec "decodes losslessly — round-tripping reproduces exact
inputs"); since the packing layout is left open by the specification, the
model keeps the decoded form as the interchange value. -/
structure BitSpanM where
  addr : Nat
  head : Nat
  len : Nat
deriving DecidableEq, Repr

/-- Number of storage elements of width `w` covered by a span:
`ceil((head + len) / w)`, per the specification of the owned region's
allocation geometry. -/
def elemsOf (w : Nat) (s : BitSpanM) : Nat :=
  (s.head + s.len + (w - 1)) / w

/-- The allocator-facing state: contents of each live allocation (address to
element data, as bits), the size in elements passed to each `allocate` call,
and the size passed to each `deallocate` call, most recent first, plus a
fresh-address source.  The two lists record every allocator call ever made,
so their lengths count calls. -/
structure HeapState where
  mem : List (Nat × List Bool)
  allocSizes : List Nat
  deallocSizes : List Nat
  nextAddr : Nat
deriving DecidableEq, Repr

/-- A heap with no allocations and no allocator calls yet. -/
def initHeap : HeapState :=
  { mem := [], allocSizes := [], deallocSizes := [], nextAddr := 8 }

/-- An owned bit region (`BitBox`): a single non-null, properly encoded span
handle, exclusively owning the allocation it points into. -/
structure BitBoxM where
  span : BitSpanM
deriving DecidableEq, Repr

/-- Modelled from the spec: the allocating constructor
(`BitBox::from_bitslice`, which `BitBox::new` delegates to; its body is not
part of this repository snapshot).  "Copies a finite bit sequence into a
freshly sized allocation.  Zero-length input performs no allocation call and
yields a region with bit length 0 and a non-dereferenced sentinel address";
a nonempty input of length `L` allocates `ceil(L / w)` elements in one
allocator call and copies the bits in starting at head-bit 0. -/
def allocateFrom (w : Nat) (bits : List Bool) (h : HeapState) :
    BitBoxM × HeapState :=
  if bits.length = 0 then
    (⟨⟨1, 0, 0⟩⟩, h)
  else
    let n := (bits.length + (w - 1)) / w
    let stored := bits ++ List.replicate (n * w - bits.length) false
    (⟨⟨h.nextAddr, 0, bits.length⟩⟩,
      { mem := (h.nextAddr, stored) :: h.mem,
        allocSizes := n :: h.allocSizes,
        deallocSizes := h.deallocSizes,
        nextAddr := h.nextAddr + n })

/-- The bit sequence a span addresses in a heap: the `len` bits starting at
bit `head` of the allocation at `addr`.  A zero-length span addresses the
empty sequence without dereferencing its sentinel. -/
def contents (h : HeapState) (s : BitSpanM) : List Bool :=
  (((h.mem.lookup s.addr).getD []).drop s.head).take s.len

/-- Embeds `BitBox::leak` (api.rs lines 194-197): wraps the box in `ManuallyDrop`,
suppressing the destructor, and returns its span as a bit-slice reference.
No allocator call is made and the heap is untouched; only the handle
escapes. -/
def leak (b : BitBoxM) : BitSpanM :=
  b.span

/-- Embeds `BitBox::into_raw` (api.rs lines 153-155): literally `Self::leak(b)`,
returning the leaked bit-slice pointer. -/
def intoRaw (b : BitBoxM) : BitSpanM :=
  leak b

/-- Embeds `BitBox::from_raw` (api.rs lines 108-112): decodes the raw bit-slice
pointer back into a span (`BitSpan::from_bitslice_ptr_mut`) and wraps it as
the box's owned pointer.  No validation and no allocator call. -/
def fromRaw (raw : BitSpanM) : BitBoxM :=
  ⟨raw⟩

/-- Modelled from the spec: the owned region's destructor (the `Drop`
implementation for `BitBox` is not part of this repository snapshot).
It "computes the original allocation layout from the handle's stored length
and element width" and deallocates, "paired 1:1" with construction: a region
covering `n > 0` elements passes a layout of `n` elements to one
`deallocate` call; a zero-length region, whose construction made no
allocator call, makes none. -/
def dropBox (w : Nat) (b : BitBoxM) (h : HeapState) : HeapState :=
  let n := elemsOf w b.span
  if n = 0 then h
  else
    { mem := h.mem.filter (fun p => p.1 != b.span.addr),
      allocSizes := h.allocSizes,
      deallocSizes := n :: h.deallocSizes,
      nextAddr := h.nextAddr }

end BitBoxModel

namespace Radium

/-- Helper: the plain-mode and atomic-mode implementations of every single
operation agree on the returned value and the new state. -/
theorem cellStep_eq_atomicStep (e : Elem α) (op : Op α) (s : α) :
    cellStep e op s = atomicStep e op s := by
  cases op <;> rfl

/-- Helper: the plain-mode implementation of an operation does not depend on
the operation's memory-ordering hints. -/
theorem cellStep_stripOrder (e : Elem α) (op : Op α) (s : α) :
    cellStep e op s = cellStep e (stripOrder op) s := by
  cases op <;> rfl

/-- C1: routing any single-threaded, non-aliased sequence of Element Store
Policy operations through the atomic-mode implementation and through the
plain-mode (`Cell`) implementation from the same initial value produces the
identical sequence of returned previous values and the identical final
stored value. -/
theorem cell_atomic_single_thread_equiv (e : Elem α) (ops : List (Op α))
    (s : α) : runCell e ops s = runAtomic e ops s := by
  induction ops generalizing s with
  | nil => rfl
  | cons op ops ih =>
      simp only [runCell, runAtomic, cellStep_eq_atomicStep, ih]

/-- C3: whenever a `Radium` trait-method call satisfies the trait's `where`
clauses (the compile-time capability gate built from `IsBits`/`IsANum`), the
macro-emitted body it dispatches to is a real implementation, never one of
the `unreachable!` fallback bodies; so a well-typed program can never execute
an `unreachable!` fallback at run time. -/
theorem capability_gate_no_unreachable (ty : ElemTy) (k : OpKind)
    (h : wellTyped ty k = true) : bodyIsUnreachable ty k = false := by
  cases ty <;> cases k <;>
    simp_all [wellTyped, isBits, isANum, requiresBits, requiresNum,
      bodyIsUnreachable]

/-- Witness for C3: `fetch_add` on `u8` is well-typed and dispatches to a
real body. -/
theorem capability_gate_no_unreachable_witness :
    wellTyped (ElemTy.int false 1) OpKind.fetchAdd = true ∧
    bodyIsUnreachable (ElemTy.int false 1) OpKind.fetchAdd = false :=
  ⟨by decide,
    capability_gate_no_unreachable (ElemTy.int false 1) OpKind.fetchAdd
      (by decide)⟩

/-- C4: in plain (`Cell`) mode, two invocations of the same operation with
the same value arguments but arbitrary memory-ordering arguments return the
same value and leave the same stored state, and `fence` performs no
observable action (returns unit, changes nothing). -/
theorem cell_ignores_ordering (e : Elem α) (op1 op2 : Op α) (s : α)
    (h : stripOrder op1 = stripOrder op2) :
    cellStep e op1 s = cellStep e op2 s ∧
      ∀ o : MemOrder, cellStep e (Op.fence o) s = (RVal.unit, s) := by
  refine ⟨?_, fun o => rfl⟩
  rw [cellStep_stripOrder e op1 s, cellStep_stripOrder e op2 s, h]

/-- Witness for C4: a `swap` with `SeqCst` and with `Relaxed` behave
identically on a concrete `u8` cell. -/
theorem cell_ignores_ordering_witness :
    cellStep (intElem 8) (Op.swap 5 MemOrder.seqCst) 3 =
      cellStep (intElem 8) (Op.swap 5 MemOrder.relaxed) 3 ∧
    cellStep (intElem 8) (Op.fence MemOrder.seqCst) 3 = (RVal.unit, 3) :=
  ⟨(cell_ignores_ordering (intElem 8) (Op.swap 5 MemOrder.seqCst)
      (Op.swap 5 MemOrder.relaxed) 3 (by decide)).1,
    (cell_ignores_ordering (intElem 8) (Op.swap 5 MemOrder.seqCst)
      (Op.swap 5 MemOrder.relaxed) 3 (by decide)).2 MemOrder.seqCst⟩

/-- C7 counterexample: a failed `compare_exchange` in plain mode performs no
write at all (its `else` branch is just `self.get()`), refuting the claim
that every operation besides `load`/`fence` performs a write on every
invocation: on a `u8` cell storing 0, `compare_exchange(1, 2)` is a
mutating-kind operation yet performs zero `set`/`replace` calls. -/
theorem cell_mutating_write_cex :
    isMutatingKind
        (Op.compareExchange (α := Nat) 1 2 MemOrder.seqCst MemOrder.seqCst)
      = true ∧
    cellWrites (intElem 8)
        (Op.compareExchange 1 2 MemOrder.seqCst MemOrder.seqCst) 0 = 0 := by
  decide

/-- C7 as amended: in plain mode, `store`, `swap` and the `fetch_*` family
perform exactly one write on every invocation, while the three compare
operations (`compare_and_swap`, `compare_exchange`,
`compare_exchange_weak`) perform exactly one write when the stored value
equals `current` and no write otherwise; `load` and `fence` never write. -/
theorem cell_write_iff_compare_passes (e : Elem α) (op : Op α) (s : α)
    (h : isMutatingKind op = true) :
    cellWrites e op s = if comparePasses e op s then 1 else 0 := by
  cases op <;> simp_all [cellWrites, comparePasses, isMutatingKind]

/-- Witness for C7's amended theorem: a `store` on a concrete `u8` cell is
mutating-kind and performs exactly one write. -/
theorem cell_write_iff_compare_passes_witness :
    isMutatingKind (Op.store (α := Nat) 5 MemOrder.seqCst) = true ∧
    cellWrites (intElem 8) (Op.store 5 MemOrder.seqCst) 0 =
      if comparePasses (intElem 8) (Op.store 5 MemOrder.seqCst) 0 then 1
      else 0 :=
  ⟨by decide,
    cell_write_iff_compare_passes (intElem 8) (Op.store 5 MemOrder.seqCst) 0
      (by decide)⟩

/-- C8: in plain mode, `compare_exchange(current, new)` returns
`Ok(prev)` with `prev = current` and stores `new` exactly when the
previously-stored value equals `current`; otherwise it returns `Err(prev)`
carrying the previously-stored value and leaves the stored value
unchanged. -/
theorem cell_compare_exchange_ok_err (w cur new s : Nat)
    (so fo : MemOrder) :
    (s = cur →
      cellStep (intElem w) (Op.compareExchange cur new so fo) s =
        (RVal.ok cur, new)) ∧
    (s ≠ cur →
      cellStep (intElem w) (Op.compareExchange cur new so fo) s =
        (RVal.err s, s)) := by
  constructor
  · intro hs
    subst hs
    simp [cellStep, cellCompareExchange, intElem]
  · intro hs
    simp [cellStep, cellCompareExchange, intElem, Nat.beq_eq_true_eq, hs]

/-- Witness for C8: on a concrete `u8` cell, a matching `compare_exchange`
succeeds with the previous value and a mismatched one fails and leaves the
state unchanged. -/
theorem cell_compare_exchange_ok_err_witness :
    cellStep (intElem 8)
        (Op.compareExchange 5 7 MemOrder.seqCst MemOrder.seqCst) 5 =
      (RVal.ok 5, 7) ∧
    cellStep (intElem 8)
        (Op.compareExchange 5 7 MemOrder.seqCst MemOrder.seqCst) 6 =
      (RVal.err 6, 6) :=
  ⟨(cell_compare_exchange_ok_err 8 5 7 5 MemOrder.seqCst MemOrder.seqCst).1
      rfl,
    (cell_compare_exchange_ok_err 8 5 7 6 MemOrder.seqCst MemOrder.seqCst).2
      (by decide)⟩

/-- C9: in plain mode, `compare_exchange_weak` is extensionally equal to
`compare_exchange` for all arguments, orderings and states (the `Cell`
implementation delegates directly), and on integer cells it never fails
spuriously: it succeeds exactly when the previously-stored value equals
`current`. -/
theorem cell_weak_equals_compare_exchange (e : Elem α) (cur new s : α)
    (so fo so2 fo2 : MemOrder) :
    cellStep e (Op.compareExchangeWeak cur new so fo) s =
      cellStep e (Op.compareExchange cur new so2 fo2) s ∧
    ∀ (w cur2 new2 s2 : Nat),
      ((cellStep (intElem w)
          (Op.compareExchangeWeak cur2 new2 so fo) s2).1 = RVal.ok s2 ↔
        s2 = cur2) := by
  refine ⟨rfl, fun w cur2 new2 s2 => ?_⟩
  by_cases hc : s2 = cur2
  · subst hc
    simp [cellStep, cellCompareExchange, intElem]
  · simp [cellStep, cellCompareExchange, intElem, Nat.beq_eq_true_eq, hc]

/-- Witness for C9: on a concrete `u8` cell, `compare_exchange_weak` agrees
with `compare_exchange` and succeeds on a matching `current`. -/
theorem cell_weak_equals_compare_exchange_witness :
    cellStep (intElem 8)
        (Op.compareExchangeWeak 5 7 MemOrder.seqCst MemOrder.relaxed) 5 =
      cellStep (intElem 8)
        (Op.compareExchange 5 7 MemOrder.acquire MemOrder.release) 5 ∧
    (cellStep (intElem 8)
        (Op.compareExchangeWeak 5 7 MemOrder.seqCst MemOrder.relaxed) 5).1 =
      RVal.ok 5 :=
  ⟨(cell_weak_equals_compare_exchange (intElem 8) 5 7 5 MemOrder.seqCst
      MemOrder.relaxed MemOrder.acquire MemOrder.release).1,
    ((cell_weak_equals_compare_exchange (intElem 8) 5 7 5 MemOrder.seqCst
      MemOrder.relaxed MemOrder.acquire MemOrder.release).2 8 5 7 5).mpr
      rfl⟩

/-- C10: in plain mode, on the `w`-bit integer element, `fetch_add` and
`fetch_sub` return the previously-stored value and compute the new stored
value as the exact sum (respectively difference) reduced modulo `2 ^ w`:
the new state is below `2 ^ w`, congruent to `s + v` modulo `2 ^ w` for
`fetch_add`, and adding `v` back to the `fetch_sub` result recovers `s`
modulo `2 ^ w`. -/
theorem cell_fetch_add_sub_wrap (w v s : Nat) (o : MemOrder)
    (hv : v < 2 ^ w) :
    (cellStep (intElem w) (Op.fetchAdd v o) s).1 = RVal.val s ∧
    (cellStep (intElem w) (Op.fetchAdd v o) s).2 = (s + v) % 2 ^ w ∧
    (cellStep (intElem w) (Op.fetchAdd v o) s).2 % 2 ^ w =
      (s + v) % 2 ^ w ∧
    (cellStep (intElem w) (Op.fetchAdd v o) s).2 < 2 ^ w ∧
    (cellStep (intElem w) (Op.fetchSub v o) s).1 = RVal.val s ∧
    ((cellStep (intElem w) (Op.fetchSub v o) s).2 + v) % 2 ^ w =
      s % 2 ^ w ∧
    (cellStep (intElem w) (Op.fetchSub v o) s).2 < 2 ^ w := by
  have hpos : 0 < 2 ^ w := Nat.pos_pow_of_pos w (by decide)
  refine ⟨rfl, rfl, ?_, ?_, rfl, ?_, ?_⟩
  · exact Nat.mod_mod_of_dvd _ dvd_rfl
  · exact Nat.mod_lt _ hpos
  · show ((s + (2 ^ w - v % 2 ^ w)) % 2 ^ w + v) % 2 ^ w = s % 2 ^ w
    rw [Nat.mod_eq_of_lt hv, Nat.mod_add_mod, Nat.add_assoc,
      Nat.sub_add_cancel (Nat.le_of_lt hv), Nat.add_mod_right]
  · exact Nat.mod_lt _ hpos

/-- Witness for C10: `fetch_add 200` and `fetch_sub 200` on a `u8` cell
storing 100 wrap modulo 256 and return the previous value. -/
theorem cell_fetch_add_sub_wrap_witness :
    200 < 2 ^ 8 ∧
    (cellStep (intElem 8) (Op.fetchAdd 200 MemOrder.seqCst) 100).1 =
      RVal.val 100 ∧
    (cellStep (intElem 8) (Op.fetchAdd 200 MemOrder.seqCst) 100).2 =
      (100 + 200) % 2 ^ 8 :=
  ⟨by decide,
    (cell_fetch_add_sub_wrap 8 200 100 MemOrder.seqCst (by decide)).1,
    (cell_fetch_add_sub_wrap 8 200 100 MemOrder.seqCst (by decide)).2.1⟩

end Radium

namespace BitBoxModel

/-- Helper: `(L + (w - 1)) / w` is the ceiling of `L / w`: multiplying it
back by `w` covers `L` but overshoots by less than one full element. -/
theorem ceilDiv_bounds (w L : Nat) (hw : 0 < w) :
    L ≤ w * ((L + (w - 1)) / w) ∧ w * ((L + (w - 1)) / w) < L + w := by
  have h1 := Nat.div_add_mod (L + (w - 1)) w
  have h2 : (L + (w - 1)) % w < w := Nat.mod_lt _ hw
  obtain ⟨a, ha⟩ : ∃ a, w * ((L + (w - 1)) / w) = a := ⟨_, rfl⟩
  obtain ⟨r, hr⟩ : ∃ r, (L + (w - 1)) % w = r := ⟨_, rfl⟩
  rw [ha, hr] at h1
  rw [hr] at h2
  rw [ha]
  clear ha hr
  omega

/-- C6: the allocating constructor on a source bit sequence of length `L`
(head-bit 0) yields a region of bit length `L`; it makes one allocator call
of exactly `(L + (w - 1)) / w` elements when `L > 0` and zero allocator
calls when `L = 0` (leaving the heap untouched); and that element count is
exactly `ceil(L / w)`, as certified by the two covering bounds. -/
theorem allocation_sizing (w : Nat) (hw : 0 < w) (bits : List Bool)
    (h : HeapState) :
    (allocateFrom w bits h).1.span.len = bits.length ∧
    (allocateFrom w bits h).2.allocSizes.length =
      h.allocSizes.length + (if bits.length = 0 then 0 else 1) ∧
    (bits.length = 0 → (allocateFrom w bits h).2 = h) ∧
    (bits.length ≠ 0 → (allocateFrom w bits h).2.allocSizes =
      ((bits.length + (w - 1)) / w) :: h.allocSizes) ∧
    bits.length ≤ w * ((bits.length + (w - 1)) / w) ∧
    w * ((bits.length + (w - 1)) / w) < bits.length + w := by
  refine ⟨?_, ?_, ?_, ?_, (ceilDiv_bounds w bits.length hw).1,
    (ceilDiv_bounds w bits.length hw).2⟩ <;>
    by_cases hL : bits.length = 0 <;>
    simp [allocateFrom, hL]

/-- Witness for C6: building a 3-bit region over 8-bit elements yields
length 3 and a single 1-element allocation. -/
theorem allocation_sizing_witness :
    0 < 8 ∧
    (allocateFrom 8 [true, false, true] initHeap).1.span.len =
      [true, false, true].length ∧
    (allocateFrom 8 [true, false, true] initHeap).2.allocSizes.length =
      initHeap.allocSizes.length + (if [true, false, true].length = 0
        then 0 else 1) :=
  ⟨by decide,
    (allocation_sizing 8 (by decide) [true, false, true] initHeap).1,
    (allocation_sizing 8 (by decide) [true, false, true] initHeap).2.1⟩

/-- C2 counterexample: for the zero-length owned region, decomposing with
`into_raw` and reconstructing with `from_raw` preserves length and contents,
but dropping the reconstruction performs zero deallocations, not exactly
one: the empty region made no allocation (see C6), so its drop makes no
`deallocate` call. -/
theorem raw_roundtrip_cex :
    (fromRaw (intoRaw (allocateFrom 8 [] initHeap).1)).span.len =
      (allocateFrom 8 [] initHeap).1.span.len ∧
    contents (allocateFrom 8 [] initHeap).2
        (fromRaw (intoRaw (allocateFrom 8 [] initHeap).1)).span =
      contents (allocateFrom 8 [] initHeap).2
        (allocateFrom 8 [] initHeap).1.span ∧
    (dropBox 8 (fromRaw (intoRaw (allocateFrom 8 [] initHeap).1))
        (allocateFrom 8 [] initHeap).2).deallocSizes.length ≠
      (allocateFrom 8 [] initHeap).2.deallocSizes.length + 1 := by
  decide

/-- C2 as amended: for every owned region, `from_raw (into_raw r)` is the
very same region — same span, hence same bit length and same bit contents in
any heap — and dropping the reconstruction deallocates exactly once (with
the original allocation layout) when the region covers at least one storage
element; a region covering zero elements (the zero-length region, which
allocated nothing) deallocates nothing. -/
theorem raw_roundtrip_preserves (w : Nat) (b : BitBoxM) (h : HeapState) :
    fromRaw (intoRaw b) = b ∧
    (fromRaw (intoRaw b)).span.len = b.span.len ∧
    contents h (fromRaw (intoRaw b)).span = contents h b.span ∧
    (0 < elemsOf w b.span →
      (dropBox w (fromRaw (intoRaw b)) h).deallocSizes =
        elemsOf w b.span :: h.deallocSizes) ∧
    (elemsOf w b.span = 0 → dropBox w (fromRaw (intoRaw b)) h = h) := by
  refine ⟨rfl, rfl, rfl, ?_, ?_⟩
  · intro hn
    have hne : elemsOf w b.span ≠ 0 := Nat.pos_iff_ne_zero.mp hn
    simp [dropBox, fromRaw, intoRaw, leak, hne]
  · intro hz
    simp [dropBox, fromRaw, intoRaw, leak, hz]

/-- Witness for C2's amended theorem: a 1-bit region over 8-bit elements
covers one element, and dropping its raw round trip records exactly one
deallocation of one element. -/
theorem raw_roundtrip_preserves_witness :
    0 < elemsOf 8 (allocateFrom 8 [true] initHeap).1.span ∧
    (dropBox 8 (fromRaw (intoRaw (allocateFrom 8 [true] initHeap).1))
        (allocateFrom 8 [true] initHeap).2).deallocSizes =
      elemsOf 8 (allocateFrom 8 [true] initHeap).1.span ::
        (allocateFrom 8 [true] initHeap).2.deallocSizes :=
  ⟨by decide,
    (raw_roundtrip_preserves 8 (allocateFrom 8 [true] initHeap).1
      (allocateFrom 8 [true] initHeap).2).2.2.2.1 (by decide)⟩

/-- C5 counterexample: leaking the zero-length owned region, reconstructing
from the same handle, and dropping performs zero deallocations, not exactly
one: the empty region made no allocation, so the sequence frees nothing. -/
theorem leak_reclaim_cex :
    (dropBox 8 (fromRaw (leak (allocateFrom 8 [] initHeap).1))
        (allocateFrom 8 [] initHeap).2).deallocSizes.length ≠
      (allocateFrom 8 [] initHeap).2.deallocSizes.length + 1 ∧
    (dropBox 8 (fromRaw (leak (allocateFrom 8 [] initHeap).1))
        (allocateFrom 8 [] initHeap).2).deallocSizes.length = 0 := by
  decide

/-- C5 as amended: `leak` returns the region's span without any allocator
interaction (`ManuallyDrop` suppresses the destructor, and the heap is not
touched), and `leak` followed by `from_raw` and a drop performs exactly one
deallocation — never zero, never two — whenever the region covers at least
one storage element; the zero-element (zero-length) region, which allocated
nothing, deallocates nothing. -/
theorem leak_reclaim_single_dealloc (w : Nat) (b : BitBoxM)
    (h : HeapState) :
    (0 < elemsOf w b.span →
      (dropBox w (fromRaw (leak b)) h).deallocSizes =
        elemsOf w b.span :: h.deallocSizes ∧
      (dropBox w (fromRaw (leak b)) h).deallocSizes.length =
        h.deallocSizes.length + 1) ∧
    (elemsOf w b.span = 0 → dropBox w (fromRaw (leak b)) h = h) ∧
    leak b = b.span := by
  refine ⟨?_, ?_, rfl⟩
  · intro hn
    have hne : elemsOf w b.span ≠ 0 := Nat.pos_iff_ne_zero.mp hn
    constructor <;> simp [dropBox, fromRaw, leak, hne]
  · intro hz
    simp [dropBox, fromRaw, leak, hz]

/-- Witness for C5's amended theorem: leaking and reclaiming a 2-bit region
over 8-bit elements deallocates exactly once. -/
theorem leak_reclaim_single_dealloc_witness :
    0 < elemsOf 8 (allocateFrom 8 [true, true] initHeap).1.span ∧
    (dropBox 8 (fromRaw (leak (allocateFrom 8 [true, true] initHeap).1))
        (allocateFrom 8 [true, true] initHeap).2).deallocSizes.length =
      (allocateFrom 8 [true, true] initHeap).2.deallocSizes.length + 1 :=
  ⟨by decide,
    ((leak_reclaim_single_dealloc 8 (allocateFrom 8 [true, true] initHeap).1
      (allocateFrom 8 [true, true] initHeap).2).1 (by decide)).2⟩

end BitBoxModel
